import Mathlib

set_option maxRecDepth 16000

/-!
Shallow embedding of src/CNC-Werkzeuge-to-FreeCAD-Files.py.

The script is a one-shot batch transformation: it reads tool rows from a
spreadsheet, builds one tool-definition record per valid row, and assigns the
collected output paths to libraries described by a second sheet.  The
embedding below models the pure row-to-record logic.  External effects are
made explicit:
  - spreadsheet cells are `Option String` (`none` = empty/NaN cell) and a
    row's extra columns are an association list, looked up with the default
    semantics of `row.get(key, default)`;
  - file writes are modelled by an oracle `writeFails : String -> Bool`; a
    successful write is recorded in the run state's `writes` list, a failed
    one only in the log (mirroring lines 374-380 of the source, where the
    IOError is logged and the path is returned either way);
  - logging calls are modelled structurally by `LogEntry` values carrying the
    identifying payload of the corresponding message.
Python `str.lower` is modelled for the ASCII range, which covers every
category and template stem the script is used with.
-/

/-- Python str.lower restricted to ASCII (Char.toLower). -/
def pyLower (s : String) : String :=
  String.mk (s.data.map Char.toLower)

/-- The character class [0-9a-zA-Z_] kept by the third substitution of
clean_filename (source line 99). -/
def isAllowed (c : Char) : Bool :=
  decide ('0' ≤ c ∧ c ≤ '9') || decide ('a' ≤ c ∧ c ≤ 'z')
    || decide ('A' ≤ c ∧ c ≤ 'Z') || decide (c = '_')

/-- The three re.sub passes of clean_filename on the character list:
degree sign to G, hyphen to underscore, then drop anything outside
[0-9a-zA-Z_] (source lines 97-99). -/
def cleanChars (s : List Char) : List Char :=
  ((s.map (fun c => if c = '°' then 'G' else c)).map
    (fun c => if c = '-' then '_' else c)).filter isAllowed

/-- clean_filename, source lines 96-100. -/
def clean_filename (s : String) : String :=
  String.mk (cleanChars s.data)

/-- Python str.replace: replace all non-overlapping occurrences, scanning left
to right.  Fuel-based structural recursion so the kernel can evaluate it; fuel
equal to the input length suffices for the non-empty patterns used here. -/
def replaceFuel (pat rep : List Char) : Nat → List Char → List Char
  | 0, s => s
  | _ + 1, [] => []
  | n + 1, c :: rest =>
    if pat.isPrefixOf (c :: rest) then
      rep ++ replaceFuel pat rep n ((c :: rest).drop pat.length)
    else c :: replaceFuel pat rep n rest

def pyReplace (s pat rep : String) : String :=
  String.mk (replaceFuel pat.data rep.data s.data.length s.data)

/-- Everything after the last occurrence of a one-character separator:
models `path.split(sep)[-1]` (source line 438). -/
def afterLastSep (sep : Char) (s : List Char) : List Char :=
  s.foldl (fun acc c => if c = sep then [] else acc ++ [c]) []

/-- os.path.basename, Windows flavour: the last component after either
path separator. -/
def basename (p : String) : String :=
  String.mk (afterLastSep '/' (afterLastSep '\\' p.data))

/-- os.path.join for a directory with no trailing separator, Windows flavour:
the script is configured with Windows paths and generate_library_tool_structure
splits on the backslash accordingly. -/
def joinPath (dir file : String) : String :=
  dir ++ "\\" ++ file

/-- First-match association lookup.  Dictionaries built by repeated insertion
are represented with the newest entry consed in front, so the first match
reproduces Python's overwrite-on-reinsert semantics. -/
def alookup {α : Type} : List (String × α) → String → Option α
  | [], _ => none
  | p :: rest, k => if p.1 = k then some p.2 else alookup rest k

/-- One constructor per logging call of the row/record pipeline, carrying the
identifying payload of the corresponding message (source lines 630, 635, 642,
134, 378, 650, 653). -/
inductive LogEntry where
  | warnBlank : LogEntry
  | warnHeader : LogEntry
  | errorDuplicate : String → LogEntry
  | warnNoShape : String → String → LogEntry
  | critWriteFail : String → LogEntry
  | infoCreated : String → LogEntry
  | errorNoToolDef : LogEntry
deriving DecidableEq, Repr

/-- read_shape_files, source lines 110-117: for each directory entry ending in
".fcstd", map the lowercased stem (all ".fcstd" substrings removed) to the
original filename. -/
def read_shape_files (files : List String) : List (String × String) :=
  files.foldl
    (fun m file =>
      if (".fcstd".data).isSuffixOf file.data then
        (pyLower (pyReplace file ".fcstd" ""), file) :: m
      else m)
    []

/-- get_shape_for_type, source lines 127-135: look the lowercased category up
in the type/shape mapping; the template filename is returned when the mapped
key is truthy and present among the available shapes, otherwise a warning
naming the tool and the category is logged and the result is absent. -/
def get_shape_for_type (tool_name tool_type : String)
    (type_shape_mapping available_shapes : List (String × String)) :
    Option String × List LogEntry :=
  match alookup type_shape_mapping (pyLower tool_type) with
  | some shape_key =>
    if shape_key = "" then (none, [LogEntry.warnNoShape tool_name tool_type])
    else
      match alookup available_shapes shape_key with
      | some v => (some v, [])
      | none => (none, [LogEntry.warnNoShape tool_name tool_type])
  | none => (none, [LogEntry.warnNoShape tool_name tool_type])

/-- The configuration record fields the pipeline reads (load_config, source
lines 506-529).  `pfx` models config["prefix"] (renamed because the source
name is not a usable identifier here). -/
structure Config where
  pfx : String
  output_directory : String
  type_shape_mapping : List (String × String)
  library_version : Int
deriving Repr

/-- The tool_data object serialized to a .fctb file (source lines 165-171),
with the parameter and attribute dictionaries as association lists. -/
structure ToolData where
  version : Nat
  name : String
  shape : String
  parameter : List (String × String)
  attr : List (String × String)
deriving DecidableEq, Repr

/-- row.get(key, default) over the row's cell dictionary: the default applies
exactly when the key is absent. -/
def rget (cells : List (String × String)) (k d : String) : String :=
  (alookup cells k).getD d

/-- The parameter block of create_tool_definition (source lines 180-370): the
derived per-attribute strings and the if/elif dispatch on tool_shape.  Note
that the source binds flatRadius twice (lines 204 and 213); the second binding
wins, so no halving takes place.  When tool_shape matches no branch the
parameter dictionary stays empty (initialised at line 169). -/
def buildParams (tool_shape : String) (cells : List (String × String)) :
    List (String × String) :=
  let chipload := rget cells "Chipload" "0,00" ++ " mm"
  let cuttingEdgeHeight := rget cells "Schneidlänge" "1,00" ++ " mm"
  let diameter := rget cells "Schneidende Ø" "1,00" ++ " mm"
  let flutes := rget cells "Zahnanzahl" "0"
  let lenght := rget cells "Gesamtlänge" "2,00" ++ " mm"
  let material := rget cells "Beschichtung" ""
  let shankDiameter := rget cells "Schaft Ø" "4,00" ++ " mm"
  let cuttingEdgeAngle := rget cells "Schneidwinkel" "90,00" ++ "  °"
  let tipDiameter := rget cells "Front Ø" "4,00" ++ " mm"
  let tipAngle := rget cells "Schneidwinkel" "90,00" ++ "  °"
  let flatRadius := rget cells "Front Ø" "4,00" ++ " mm"
  let spindleDirection := "Forward"
  let spindlePower := "False"
  let bladeThickness := "3,00 mm"
  let capDiameter := "8,00 mm"
  let capHeight := "3,00 mm"
  let crest := "0,10 mm"
  let neckDiameter := "3,00 mm"
  let neckLenght := "3,00 mm"
  let cuttingAngle := rget cells "Schneidwinkel" "90,00" ++ "  °"
  if tool_shape = "ballend" then
    [("Chipload", chipload), ("CuttingEdgeHeight", cuttingEdgeHeight),
     ("Diameter", diameter), ("Flutes", flutes), ("Length", lenght),
     ("Material", material), ("ShankDiameter", shankDiameter)]
  else if tool_shape = "bullnose" then
    [("Chipload", chipload), ("CuttingEdgeHeight", cuttingEdgeHeight),
     ("Diameter", diameter), ("FlatRadius", flatRadius), ("Flutes", flutes),
     ("Length", lenght), ("Material", material),
     ("ShankDiameter", shankDiameter)]
  else if tool_shape = "chamfer" then
    [("Chipload", chipload), ("CuttingEdgeAngle", cuttingEdgeAngle),
     ("CuttingEdgeHeight", cuttingEdgeHeight), ("Diameter", diameter),
     ("Flutes", flutes), ("Length", lenght), ("Material", material),
     ("ShankDiameter", shankDiameter), ("TipDiameter", tipDiameter)]
  else if tool_shape = "drill" then
    [("Chipload", chipload), ("Diameter", diameter), ("Flutes", flutes),
     ("Length", lenght), ("Material", material), ("TipAngle", tipAngle)]
  else if tool_shape = "endmill" then
    [("Chipload", chipload), ("CuttingEdgeHeight", cuttingEdgeHeight),
     ("Diameter", diameter), ("Flutes", flutes), ("Length", lenght),
     ("Material", material), ("ShankDiameter", shankDiameter),
     ("SpindleDirection", spindleDirection)]
  else if tool_shape = "flatend" then
    [("Chipload", chipload), ("CuttingEdgeHeight", cuttingEdgeHeight),
     ("Diameter", diameter), ("Flutes", flutes), ("Length", lenght),
     ("Material", material), ("ShankDiameter", shankDiameter)]
  else if tool_shape = "probe" then
    [("Diameter", diameter), ("Flutes", flutes), ("Length", lenght),
     ("ShankDiameter", shankDiameter), ("spindlePower", spindlePower)]
  else if tool_shape = "slittingsaw" then
    [("BladeThickness", bladeThickness), ("CapDiameter", capDiameter),
     ("CapHeight", capHeight), ("Chipload", chipload), ("Diameter", diameter),
     ("Flutes", flutes), ("Length", lenght), ("Material", material),
     ("ShankDiameter", shankDiameter)]
  else if tool_shape = "thread-mill" then
    [("Chipload", chipload), ("Crest", crest), ("Diameter", diameter),
     ("Flutes", flutes), ("Length", lenght), ("Material", material),
     ("NeckDiameter", neckDiameter), ("NeckLength", neckLenght),
     ("ShankDiameter", shankDiameter), ("cuttingAngle", cuttingAngle)]
  else if tool_shape = "v-bit" then
    [("Chipload", chipload), ("CuttingEdgeAngle", cuttingEdgeAngle),
     ("CuttingEdgeHeight", cuttingEdgeHeight), ("Diameter", diameter),
     ("Flutes", flutes), ("Length", lenght), ("Material", material),
     ("ShankDiameter", shankDiameter), ("TipDiameter", tipDiameter)]
  else []

/-- The fctb_filename of source line 372: output directory joined with
prefix + cleaned label + ".fctb". -/
def pathOf (config : Config) (bezeichnung : String) : String :=
  joinPath config.output_directory (config.pfx ++ clean_filename bezeichnung ++ ".fctb")

/-- The tool_data value of source lines 165-171 after the parameter dispatch. -/
def builtData (config : Config) (bezeichnung tool_shape : String)
    (cells : List (String × String)) : ToolData :=
  { version := 2
    name := config.pfx ++ clean_filename bezeichnung
    shape := tool_shape
    parameter := buildParams tool_shape cells
    attr := [] }

/-- Result of one create_tool_definition call: the returned path (None when
shape resolution failed), the successfully written file if any, and the log
entries issued during the call. -/
structure CTDResult where
  ret : Option String
  written : Option (String × ToolData)
  logs : List LogEntry
deriving DecidableEq, Repr

/-- create_tool_definition, source lines 161-382.  On shape-resolution failure
nothing is written and None is returned.  Otherwise the record is written to
pathOf (success given by the writeFails oracle; an IOError is only logged,
line 378) and the path is returned in every case (line 380). -/
def create_tool_definition (bezeichnung kopfform : String)
    (cells : List (String × String)) (config : Config)
    (available_shapes : List (String × String)) (writeFails : String → Bool) :
    CTDResult :=
  match get_shape_for_type bezeichnung kopfform config.type_shape_mapping available_shapes with
  | (none, w) => ⟨none, none, w⟩
  | (some tool_shape, w) =>
    if writeFails (pathOf config bezeichnung) then
      ⟨some (pathOf config bezeichnung), none,
        w ++ [LogEntry.critWriteFail (pathOf config bezeichnung)]⟩
    else
      ⟨some (pathOf config bezeichnung),
        some (pathOf config bezeichnung, builtData config bezeichnung tool_shape cells), w⟩

/-- One primary-sheet row as the main loop reads it: the Bezeichnung and
Kopfform cells (None = NaN) and the remaining cells by column name. -/
structure ToolRow where
  bezeichnung : Option String
  kopfform : Option String
  cells : List (String × String)
deriving Repr

/-- The mutable state of the main row loop, source lines 619-651: seen labels,
collected returned paths, successfully written files, and the log. -/
structure RunState where
  tool_names : List String
  tools_paths : List String
  writes : List (String × ToolData)
  logs : List LogEntry
deriving DecidableEq, Repr

def initState : RunState := ⟨[], [], [], []⟩

/-- One iteration of the main loop, source lines 626-653: blank row skipped
with a warning; header row (label present, Kopfform absent) skipped with a
warning; duplicate label skipped with an error; otherwise the label is
remembered and create_tool_definition runs, its returned path being collected
when truthy. -/
def processRow (config : Config) (avail : List (String × String))
    (writeFails : String → Bool) (st : RunState) (row : ToolRow) : RunState :=
  match row.bezeichnung with
  | none => { st with logs := st.logs ++ [LogEntry.warnBlank] }
  | some bez =>
    match row.kopfform with
    | none => { st with logs := st.logs ++ [LogEntry.warnHeader] }
    | some kf =>
      if bez ∈ st.tool_names then
        { st with logs := st.logs ++ [LogEntry.errorDuplicate bez] }
      else
        match create_tool_definition bez kf row.cells config avail writeFails with
        | ⟨some path, wr, lg⟩ =>
          { st with
              tool_names := st.tool_names ++ [bez]
              tools_paths := st.tools_paths ++ [path]
              writes := st.writes ++ wr.toList
              logs := st.logs ++ lg ++ [LogEntry.infoCreated bez] }
        | ⟨none, _, lg⟩ =>
          { st with
              tool_names := st.tool_names ++ [bez]
              logs := st.logs ++ lg ++ [LogEntry.errorNoToolDef] }

def runRowsFrom (config : Config) (avail : List (String × String))
    (writeFails : String → Bool) (st : RunState) (rows : List ToolRow) : RunState :=
  rows.foldl (processRow config avail writeFails) st

/-- The whole primary-sheet pass of main, starting from the empty state. -/
def runRows (config : Config) (avail : List (String × String))
    (writeFails : String → Bool) (rows : List ToolRow) : RunState :=
  runRowsFrom config avail writeFails initState rows

/-- row.iloc[c] of a secondary-sheet row, cells indexed from 0; an empty cell
is None. -/
def cellAt (row : List (Option String)) (c : Nat) : Option String :=
  (row.get? c).join

/-- The tool identifier generate_library_tool_structure derives from an output
path, source line 438: last backslash-separated component with the literal
substrings "sjj_" and ".fctb" removed. -/
def keyOf (path : String) : String :=
  pyReplace (pyReplace (String.mk (afterLastSep '\\' path.data)) "sjj_" "") ".fctb" ""

/-- tool_names_to_path, source lines 437-440: a dict comprehension keyed by
keyOf, later paths overwriting earlier ones. -/
def buildToolMap (tools_paths : List String) : List (String × String) :=
  tools_paths.foldl (fun m p => (keyOf p, p) :: m) []

/-- Append a path to the entry of one library name, leaving other entries
untouched (the dict mutation of source line 456). -/
def appendAt : List (String × List String) → String → String → List (String × List String)
  | [], _, _ => []
  | e :: rest, k, p =>
    if e.1 = k then (e.1, e.2 ++ [p]) :: rest else e :: appendAt rest k p

/-- The inner loop body of source lines 453-456: append the path to a library
when that library's marker cell of the current row is the literal "x". -/
def markLib (row : List (Option String)) (path : String)
    (libs2 : List (String × List String)) (lc : String × Nat) :
    List (String × List String) :=
  if cellAt row lc.2 = some "x" then appendAt libs2 lc.1 path else libs2

/-- One data row of the library scan, source lines 446-456: skip when the
first column is empty; sanitize the first column; when it names a built tool,
run the marker loop over all known libraries. -/
def libRowStep (libIndex : List (String × Nat)) (toolMap : List (String × String))
    (libs : List (String × List String)) (row : List (Option String)) :
    List (String × List String) :=
  match cellAt row 0 with
  | none => libs
  | some v =>
    match alookup toolMap (clean_filename v) with
    | none => libs
    | some path => libIndex.foldl (markLib row path) libs

/-- generate_library_tool_structure, source lines 435-458. -/
def generate_library_tool_structure (sheet : List (List (Option String)))
    (libIndex : List (String × Nat)) (tools_paths : List String) :
    List (String × List String) :=
  sheet.foldl (libRowStep libIndex (buildToolMap tools_paths))
    (libIndex.map (fun lc => (lc.1, ([] : List String))))

/-- The assignment sequence claim C5 describes for one library column c: scan
the data rows in order; a row contributes the matched tool's path exactly when
its first column is non-empty, its sanitized value names a built tool, and the
marker cell in column c is the literal "x". -/
def libraryRowFilter (toolMap : List (String × String)) (c : Nat)
    (sheet : List (List (Option String))) : List String :=
  sheet.filterMap (fun row =>
    match cellAt row 0 with
    | none => none
    | some v =>
      match alookup toolMap (clean_filename v) with
      | none => none
      | some path => if cellAt row c = some "x" then some path else none)

/-- The library_data object of source lines 467-470. -/
structure LibraryData where
  tools : List (Nat × String)
  version : Int
deriving DecidableEq, Repr

/-- generate_library_files, source lines 462-481: one (filename, record) pair
per library, tools numbered from 1 in list order with the directory stripped
from each path. -/
def generate_library_files (libraries : List (String × List String))
    (config : Config) : List (String × LibraryData) :=
  libraries.map (fun lp =>
    (joinPath config.output_directory (config.pfx ++ lp.1 ++ ".fctl"),
     { tools := lp.2.enum.map (fun ip => (ip.1 + 1, basename ip.2))
       version := config.library_version }))

/-! Concrete fixtures used by the counterexamples and witnesses. -/

def cfg0 : Config :=
  { pfx := "sjj_", output_directory := "out",
    type_shape_mapping := [("kugel", "ballend")], library_version := 1 }

def avail0 : List (String × String) := read_shape_files ["ballend.fcstd"]

def wfNone : String → Bool := fun _ => false

def wfAll : String → Bool := fun _ => true

def rowK : ToolRow :=
  { bezeichnung := some "Kugel-10", kopfform := some "Kugel", cells := [] }

def rowA : ToolRow :=
  { bezeichnung := some "AB!", kopfform := some "Kugel", cells := [] }

def rowB : ToolRow :=
  { bezeichnung := some "AB", kopfform := some "Kugel", cells := [] }

def sheetK : List (List (Option String)) :=
  [[some "Kugel-10", none, none, none, none, some "x"]]

def libIdx1 : List (String × Nat) := [("Lib1", 5)]

def sheetX : List (List (Option String)) :=
  [[some "AB", none, none, none, none, some "x"]]

def pX : String := "out/xyz_AB.fctb"

def libsW : List (String × List String) := [("Lib1", ["out\\sjj_A.fctb"])]

/-! Helper lemmas about the sanitizer. -/

theorem isAllowed_of_mem_cleanChars {c : Char} {l : List Char}
    (h : c ∈ cleanChars l) : isAllowed c = true :=
  (List.mem_filter.mp h).2

theorem cleanChars_fixed (l : List Char) (h : ∀ c ∈ l, isAllowed c = true) :
    cleanChars l = l := by
  induction l with
  | nil => rfl
  | cons c t ih =>
    have hc := h c (List.mem_cons_self c t)
    have ht := ih (fun x hx => h x (List.mem_cons_of_mem c hx))
    have hne1 : c ≠ '°' := by
      intro e; rw [e] at hc; exact absurd hc (by decide)
    have hne2 : c ≠ '-' := by
      intro e; rw [e] at hc; exact absurd hc (by decide)
    show List.filter isAllowed
        (((c :: t).map (fun c => if c = '°' then 'G' else c)).map
          (fun c => if c = '-' then '_' else c)) = c :: t
    simp only [List.map_cons]
    rw [if_neg hne1, if_neg hne2, List.filter_cons_of_pos hc]
    exact congrArg (List.cons c) ht

/-- C9: the sanitizer is idempotent: for every string x,
clean_filename (clean_filename x) = clean_filename x. -/
theorem c9_sanitize_idempotent (s : String) :
    clean_filename (clean_filename s) = clean_filename s := by
  have h : cleanChars (cleanChars s.data) = cleanChars s.data :=
    cleanChars_fixed _ (fun c hc => isAllowed_of_mem_cleanChars hc)
  exact congrArg String.mk h

/-- C4 counterexample: clean_filename "Ø12-°M" evaluates to "12_GM", not to
the "12GGM" the claim asserts (the hyphen becomes an underscore, not a G). -/
theorem c4_counterexample :
    clean_filename "Ø12-°M" = "12_GM" ∧ clean_filename "Ø12-°M" ≠ "12GGM" :=
  ⟨by decide, by decide⟩

/-- C4 amended: the sanitizer applies degree-to-G, then hyphen-to-underscore,
then strips everything outside [0-9a-zA-Z_]; every output character is in
that class, and the fixtures evaluate to sanitize("Ø12-°M") = "12_GM" (not
"12GGM"), sanitize("R2-°") = "R2_G", sanitize("Fräser 6mm") = "Frser6mm",
with empty input giving empty output. -/
theorem c4_amended :
    (∀ (s : String), ∀ c ∈ (clean_filename s).data, isAllowed c = true)
    ∧ clean_filename "Ø12-°M" = "12_GM"
    ∧ clean_filename "R2-°" = "R2_G"
    ∧ clean_filename "Fräser 6mm" = "Frser6mm"
    ∧ clean_filename "" = "" := by
  refine ⟨?_, by decide, by decide, by decide, by decide⟩
  intro s c hc
  exact isAllowed_of_mem_cleanChars hc

theorem c4_witness : isAllowed 'R' = true :=
  c4_amended.1 "R2-°" 'R' (by decide)

/-- C7: shape resolution lowercases the category before the mapping lookup
(so it is case-insensitive), and whenever the mapping has no entry for the
lowercased category, or the mapped template name is not a key of the catalog,
it returns absent together with exactly one warning carrying the tool name
and the category. -/
theorem c7_shape_resolution (tool_name cat : String)
    (tsm avail : List (String × String)) :
    (∀ cat2 : String, pyLower cat = pyLower cat2 →
      (get_shape_for_type tool_name cat tsm avail).1
        = (get_shape_for_type tool_name cat2 tsm avail).1)
    ∧ ((alookup tsm (pyLower cat) = none
          ∨ ∃ sk, alookup tsm (pyLower cat) = some sk ∧ alookup avail sk = none) →
        get_shape_for_type tool_name cat tsm avail
          = (none, [LogEntry.warnNoShape tool_name cat])) := by
  constructor
  · intro cat2 h
    simp only [get_shape_for_type, h]
    cases h2 : alookup tsm (pyLower cat2) with
    | none => rfl
    | some sk =>
      by_cases hsk : sk = ""
      · simp [hsk]
      · cases h3 : alookup avail sk <;> simp [hsk, h3]
  · rintro (h | ⟨sk, h1, h2⟩)
    · simp [get_shape_for_type, h]
    · by_cases hsk : sk = ""
      · simp [get_shape_for_type, h1, hsk]
      · simp [get_shape_for_type, h1, hsk, h2]

theorem c7_witness :
    get_shape_for_type "T1" "unknown" [("kugel", "ballend")]
        [("ballend", "ballend.fcstd")]
      = (none, [LogEntry.warnNoShape "T1" "unknown"])
    ∧ (get_shape_for_type "T1" "Kugel" [("kugel", "ballend")]
        [("ballend", "ballend.fcstd")]).1
      = (get_shape_for_type "T1" "kugel" [("kugel", "ballend")]
        [("ballend", "ballend.fcstd")]).1 :=
  ⟨(c7_shape_resolution "T1" "unknown" _ _).2 (Or.inl (by decide)),
   (c7_shape_resolution "T1" "Kugel" _ _).1 "kugel" (by decide)⟩

/-- C1 (code bug): with the catalog read from a directory containing
ballend.fcstd and the category mapping kugel -> ballend, building a record
for a row with Kopfform "Kugel" and an empty diameter cell writes a record
whose parameter mapping is empty: the dispatch of lines 245-370 compares the
template filename "ballend.fcstd" against the bare stem "ballend", so no
branch fires, no Diameter key (or any of the claimed seven keys) is emitted,
and the "1,00 mm" / "1.00 mm" default question never arises. -/
theorem c1_ballend_empty_parameter :
    (create_tool_definition "Kugelfraeser" "Kugel" [] cfg0 avail0 wfNone).written
      = some (pathOf cfg0 "Kugelfraeser",
          { version := 2, name := "sjj_Kugelfraeser", shape := "ballend.fcstd",
            parameter := [], attr := [] }) := by
  decide

/-! Equational lemmas for create_tool_definition and the main loop. -/

theorem ctd_shape_fail (bez kf : String) (cells : List (String × String))
    (config : Config) (avail : List (String × String)) (wf : String → Bool)
    (w : List LogEntry)
    (hg : get_shape_for_type bez kf config.type_shape_mapping avail = (none, w)) :
    create_tool_definition bez kf cells config avail wf = ⟨none, none, w⟩ := by
  unfold create_tool_definition
  rw [hg]

theorem ctd_write_ok (bez kf : String) (cells : List (String × String))
    (config : Config) (avail : List (String × String)) (wf : String → Bool)
    (sh : String) (w : List LogEntry)
    (hg : get_shape_for_type bez kf config.type_shape_mapping avail = (some sh, w))
    (hw : wf (pathOf config bez) = false) :
    create_tool_definition bez kf cells config avail wf
      = ⟨some (pathOf config bez),
          some (pathOf config bez, builtData config bez sh cells), w⟩ := by
  unfold create_tool_definition
  rw [hg]
  simp [hw]

theorem ctd_write_fail (bez kf : String) (cells : List (String × String))
    (config : Config) (avail : List (String × String)) (wf : String → Bool)
    (sh : String) (w : List LogEntry)
    (hg : get_shape_for_type bez kf config.type_shape_mapping avail = (some sh, w))
    (hw : wf (pathOf config bez) = true) :
    create_tool_definition bez kf cells config avail wf
      = ⟨some (pathOf config bez), none,
          w ++ [LogEntry.critWriteFail (pathOf config bez)]⟩ := by
  unfold create_tool_definition
  rw [hg]
  simp [hw]

theorem ctd_ret_indep (bez kf : String) (cells : List (String × String))
    (config : Config) (avail : List (String × String)) (wf wf2 : String → Bool) :
    (create_tool_definition bez kf cells config avail wf).ret
      = (create_tool_definition bez kf cells config avail wf2).ret := by
  cases hg : get_shape_for_type bez kf config.type_shape_mapping avail with
  | mk os w =>
    cases os with
    | none =>
      rw [ctd_shape_fail bez kf cells config avail wf w hg,
        ctd_shape_fail bez kf cells config avail wf2 w hg]
    | some sh =>
      cases hw : wf (pathOf config bez) <;> cases hw2 : wf2 (pathOf config bez)
      · rw [ctd_write_ok bez kf cells config avail wf sh w hg hw,
          ctd_write_ok bez kf cells config avail wf2 sh w hg hw2]
      · rw [ctd_write_ok bez kf cells config avail wf sh w hg hw,
          ctd_write_fail bez kf cells config avail wf2 sh w hg hw2]
      · rw [ctd_write_fail bez kf cells config avail wf sh w hg hw,
          ctd_write_ok bez kf cells config avail wf2 sh w hg hw2]
      · rw [ctd_write_fail bez kf cells config avail wf sh w hg hw,
          ctd_write_fail bez kf cells config avail wf2 sh w hg hw2]

theorem ctd_written_name (bez kf : String) (cells : List (String × String))
    (config : Config) (avail : List (String × String)) (wf : String → Bool) :
    ∀ q ∈ (create_tool_definition bez kf cells config avail wf).written.toList,
      q.2.name = config.pfx ++ clean_filename bez := by
  intro q hq
  cases hg : get_shape_for_type bez kf config.type_shape_mapping avail with
  | mk os w =>
    cases os with
    | none =>
      rw [ctd_shape_fail bez kf cells config avail wf w hg] at hq
      simp at hq
    | some sh =>
      cases hw : wf (pathOf config bez) with
      | false =>
        rw [ctd_write_ok bez kf cells config avail wf sh w hg hw] at hq
        simp at hq
        rw [hq]
        rfl
      | true =>
        rw [ctd_write_fail bez kf cells config avail wf sh w hg hw] at hq
        simp at hq

theorem processRow_dup (config : Config) (avail : List (String × String))
    (wf : String → Bool) (st : RunState) (row : ToolRow) (bez kf : String)
    (hb : row.bezeichnung = some bez) (hk : row.kopfform = some kf)
    (hmem : bez ∈ st.tool_names) :
    processRow config avail wf st row
      = { st with logs := st.logs ++ [LogEntry.errorDuplicate bez] } := by
  simp [processRow, hb, hk, hmem]

theorem processRow_accept (config : Config) (avail : List (String × String))
    (wf : String → Bool) (st : RunState) (row : ToolRow) (bez kf sh : String)
    (w : List LogEntry)
    (hb : row.bezeichnung = some bez) (hk : row.kopfform = some kf)
    (hmem : bez ∉ st.tool_names)
    (hg : get_shape_for_type bez kf config.type_shape_mapping avail = (some sh, w))
    (hw : wf (pathOf config bez) = false) :
    processRow config avail wf st row
      = { st with
            tool_names := st.tool_names ++ [bez]
            tools_paths := st.tools_paths ++ [pathOf config bez]
            writes := st.writes ++ [(pathOf config bez, builtData config bez sh row.cells)]
            logs := st.logs ++ w ++ [LogEntry.infoCreated bez] } := by
  simp [processRow, hb, hk, hmem, ctd_write_ok bez kf row.cells config avail wf sh w hg hw]

theorem processRow_extends (config : Config) (avail : List (String × String))
    (wf : String → Bool) (st : RunState) (row : ToolRow) :
    ∃ a b c d, processRow config avail wf st row
      = ⟨st.tool_names ++ a, st.tools_paths ++ b, st.writes ++ c, st.logs ++ d⟩ := by
  cases hb : row.bezeichnung with
  | none =>
    exact ⟨[], [], [], [LogEntry.warnBlank], by simp [processRow, hb]⟩
  | some bez =>
    cases hk : row.kopfform with
    | none =>
      exact ⟨[], [], [], [LogEntry.warnHeader], by simp [processRow, hb, hk]⟩
    | some kf =>
      by_cases hmem : bez ∈ st.tool_names
      · exact ⟨[], [], [], [LogEntry.errorDuplicate bez],
          by simp [processRow, hb, hk, hmem]⟩
      · cases hc : create_tool_definition bez kf row.cells config avail wf with
        | mk ret wr lg =>
          cases ret with
          | some path =>
            exact ⟨[bez], [path], wr.toList, lg ++ [LogEntry.infoCreated bez],
              by simp [processRow, hb, hk, hmem, hc]⟩
          | none =>
            exact ⟨[bez], [], [], lg ++ [LogEntry.errorNoToolDef],
              by simp [processRow, hb, hk, hmem, hc]⟩

theorem runRowsFrom_cons (config : Config) (avail : List (String × String))
    (wf : String → Bool) (st : RunState) (r : ToolRow) (t : List ToolRow) :
    runRowsFrom config avail wf st (r :: t)
      = runRowsFrom config avail wf (processRow config avail wf st r) t := rfl

theorem runRowsFrom_append (config : Config) (avail : List (String × String))
    (wf : String → Bool) (st : RunState) (xs ys : List ToolRow) :
    runRowsFrom config avail wf st (xs ++ ys)
      = runRowsFrom config avail wf (runRowsFrom config avail wf st xs) ys :=
  List.foldl_append _ _ _ _

theorem runRowsFrom_extends (config : Config) (avail : List (String × String))
    (wf : String → Bool) (rows : List ToolRow) (st : RunState) :
    ∃ a b c d, runRowsFrom config avail wf st rows
      = ⟨st.tool_names ++ a, st.tools_paths ++ b, st.writes ++ c, st.logs ++ d⟩ := by
  induction rows generalizing st with
  | nil => exact ⟨[], [], [], [], by simp [runRowsFrom]⟩
  | cons r t ih =>
    obtain ⟨a1, b1, c1, d1, h1⟩ := processRow_extends config avail wf st r
    obtain ⟨a2, b2, c2, d2, h2⟩ := ih (processRow config avail wf st r)
    refine ⟨a1 ++ a2, b1 ++ b2, c1 ++ c2, d1 ++ d2, ?_⟩
    rw [runRowsFrom_cons, h2, h1]
    simp [List.append_assoc]

theorem mem_tool_names_runRowsFrom (config : Config) (avail : List (String × String))
    (wf : String → Bool) (st : RunState) (rows : List ToolRow) {x : String}
    (h : x ∈ st.tool_names) : x ∈ (runRowsFrom config avail wf st rows).tool_names := by
  obtain ⟨a, b, c, d, he⟩ := runRowsFrom_extends config avail wf rows st
  rw [he]
  exact List.mem_append_left _ h

theorem mem_writes_runRowsFrom (config : Config) (avail : List (String × String))
    (wf : String → Bool) (st : RunState) (rows : List ToolRow) {q : String × ToolData}
    (h : q ∈ st.writes) : q ∈ (runRowsFrom config avail wf st rows).writes := by
  obtain ⟨a, b, c, d, he⟩ := runRowsFrom_extends config avail wf rows st
  rw [he]
  exact List.mem_append_left _ h

theorem mem_logs_runRowsFrom (config : Config) (avail : List (String × String))
    (wf : String → Bool) (st : RunState) (rows : List ToolRow) {e : LogEntry}
    (h : e ∈ st.logs) : e ∈ (runRowsFrom config avail wf st rows).logs := by
  obtain ⟨a, b, c, d, he⟩ := runRowsFrom_extends config avail wf rows st
  rw [he]
  exact List.mem_append_left _ h

theorem processRow_paths_indep (config : Config) (avail : List (String × String))
    (wf wf2 : String → Bool) (st st2 : RunState) (r : ToolRow)
    (h1 : st.tool_names = st2.tool_names) (h2 : st.tools_paths = st2.tools_paths) :
    (processRow config avail wf st r).tool_names
        = (processRow config avail wf2 st2 r).tool_names
    ∧ (processRow config avail wf st r).tools_paths
        = (processRow config avail wf2 st2 r).tools_paths := by
  cases hb : r.bezeichnung with
  | none => constructor <;> simp [processRow, hb, h1, h2]
  | some bez =>
    cases hk : r.kopfform with
    | none => constructor <;> simp [processRow, hb, hk, h1, h2]
    | some kf =>
      by_cases hmem : bez ∈ st.tool_names
      · have hmem2 : bez ∈ st2.tool_names := h1 ▸ hmem
        constructor <;> simp [processRow, hb, hk, hmem, hmem2, h1, h2]
      · have hmem2 : bez ∉ st2.tool_names := h1 ▸ hmem
        have hret := ctd_ret_indep bez kf r.cells config avail wf wf2
        cases hc : create_tool_definition bez kf r.cells config avail wf with
        | mk ret wr lg =>
          cases hc2 : create_tool_definition bez kf r.cells config avail wf2 with
          | mk ret2 wr2 lg2 =>
            rw [hc, hc2] at hret
            have hret2 : ret = ret2 := hret
            subst hret2
            cases ret with
            | some path =>
              constructor <;> simp [processRow, hb, hk, hmem, hmem2, hc, hc2, h1, h2]
            | none =>
              constructor <;> simp [processRow, hb, hk, hmem, hmem2, hc, hc2, h1, h2]

theorem runRows_paths_indep (config : Config) (avail : List (String × String))
    (wf wf2 : String → Bool) (rows : List ToolRow) :
    (runRows config avail wf rows).tool_names
        = (runRows config avail wf2 rows).tool_names
    ∧ (runRows config avail wf rows).tools_paths
        = (runRows config avail wf2 rows).tools_paths := by
  suffices h : ∀ st st2 : RunState, st.tool_names = st2.tool_names →
      st.tools_paths = st2.tools_paths →
      (runRowsFrom config avail wf st rows).tool_names
          = (runRowsFrom config avail wf2 st2 rows).tool_names
        ∧ (runRowsFrom config avail wf st rows).tools_paths
          = (runRowsFrom config avail wf2 st2 rows).tools_paths by
    exact h initState initState rfl rfl
  induction rows with
  | nil => intro st st2 h1 h2; exact ⟨h1, h2⟩
  | cons r t ih =>
    intro st st2 h1 h2
    rw [runRowsFrom_cons, runRowsFrom_cons]
    obtain ⟨g1, g2⟩ := processRow_paths_indep config avail wf wf2 st st2 r h1 h2
    exact ih _ _ g1 g2

/-- C2 amended: a failed record write is logged (a critical entry naming the
file), nothing lands on disk for it, and the run continues; but the failing
tool's path is still returned and collected, so the set of paths fed to
library assignment does not depend on write outcomes at all: the failing tool
participates in library assignment and can appear in library records. -/
theorem c2_amended :
    (∀ (config : Config) (avail : List (String × String)) (wf wf2 : String → Bool)
        (rows : List ToolRow),
        (runRows config avail wf rows).tools_paths
          = (runRows config avail wf2 rows).tools_paths)
    ∧ (∀ (bez kf : String) (cells : List (String × String)) (config : Config)
        (avail : List (String × String)) (wf : String → Bool) (sh : String)
        (w : List LogEntry),
        get_shape_for_type bez kf config.type_shape_mapping avail = (some sh, w) →
        wf (pathOf config bez) = true →
        create_tool_definition bez kf cells config avail wf
          = ⟨some (pathOf config bez), none,
              w ++ [LogEntry.critWriteFail (pathOf config bez)]⟩) :=
  ⟨fun config avail wf wf2 rows => (runRows_paths_indep config avail wf wf2 rows).2,
   fun bez kf cells config avail wf sh w hg hw =>
     ctd_write_fail bez kf cells config avail wf sh w hg hw⟩

theorem c2_witness :
    (runRows cfg0 avail0 wfAll [rowK]).tools_paths
      = (runRows cfg0 avail0 wfNone [rowK]).tools_paths
    ∧ create_tool_definition "Kugel-10" "Kugel" [] cfg0 avail0 wfAll
      = ⟨some (pathOf cfg0 "Kugel-10"), none,
          [LogEntry.critWriteFail (pathOf cfg0 "Kugel-10")]⟩ :=
  ⟨c2_amended.1 cfg0 avail0 wfAll wfNone [rowK],
   c2_amended.2 "Kugel-10" "Kugel" [] cfg0 avail0 wfAll "ballend.fcstd" []
     (by decide) rfl⟩

/-- C2 counterexample: a run in which the only row's record write fails.  The
failure is logged and nothing is written, yet the tool's path is collected and
phase-2 library assignment puts that very path into library "Lib1" — the
failing tool is not absent from library assignment. -/
theorem c2_counterexample :
    (runRows cfg0 avail0 wfAll [rowK]).writes = []
    ∧ LogEntry.critWriteFail (pathOf cfg0 "Kugel-10")
        ∈ (runRows cfg0 avail0 wfAll [rowK]).logs
    ∧ alookup (generate_library_tool_structure sheetK libIdx1
          (runRows cfg0 avail0 wfAll [rowK]).tools_paths) "Lib1"
        = some [pathOf cfg0 "Kugel-10"] :=
  ⟨by decide, by decide, by decide⟩

theorem processRow_inv (config : Config) (avail : List (String × String))
    (wf : String → Bool) (st : RunState) (r : ToolRow)
    (h1 : st.tool_names.Nodup)
    (h2 : ∀ q ∈ st.writes, ∃ lab ∈ st.tool_names,
        q.2.name = config.pfx ++ clean_filename lab) :
    ((processRow config avail wf st r).tool_names).Nodup
    ∧ ∀ q ∈ (processRow config avail wf st r).writes,
        ∃ lab ∈ (processRow config avail wf st r).tool_names,
          q.2.name = config.pfx ++ clean_filename lab := by
  cases hb : r.bezeichnung with
  | none =>
    refine ⟨?_, ?_⟩ <;> simp only [processRow, hb] <;> [exact h1; exact h2]
  | some bez =>
    cases hk : r.kopfform with
    | none =>
      refine ⟨?_, ?_⟩ <;> simp only [processRow, hb, hk] <;> [exact h1; exact h2]
    | some kf =>
      by_cases hmem : bez ∈ st.tool_names
      · rw [processRow_dup config avail wf st r bez kf hb hk hmem]
        exact ⟨h1, h2⟩
      · have hnodup : (st.tool_names ++ [bez]).Nodup := by
          refine h1.append (List.nodup_singleton bez) ?_
          intro a ha hb2
          rw [List.mem_singleton] at hb2
          subst hb2
          exact hmem ha
        cases hc : create_tool_definition bez kf r.cells config avail wf with
        | mk ret wr lg =>
          cases ret with
          | some path =>
            constructor
            · simpa [processRow, hb, hk, hmem, hc] using hnodup
            · intro q hq
              simp only [processRow, hb, hk, hmem, hc] at hq ⊢
              rcases List.mem_append.mp hq with hq | hq
              · obtain ⟨lab, hl, he⟩ := h2 q hq
                exact ⟨lab, List.mem_append_left _ hl, he⟩
              · have hn := ctd_written_name bez kf r.cells config avail wf q
                  (by rw [hc]; exact hq)
                exact ⟨bez, List.mem_append_right _ (List.mem_singleton_self bez), hn⟩
          | none =>
            constructor
            · simpa [processRow, hb, hk, hmem, hc] using hnodup
            · intro q hq
              simp only [processRow, hb, hk, hmem, hc] at hq ⊢
              obtain ⟨lab, hl, he⟩ := h2 q hq
              exact ⟨lab, List.mem_append_left _ hl, he⟩

theorem runState_inv (config : Config) (avail : List (String × String))
    (wf : String → Bool) (rows : List ToolRow) (st : RunState)
    (h1 : st.tool_names.Nodup)
    (h2 : ∀ q ∈ st.writes, ∃ lab ∈ st.tool_names,
        q.2.name = config.pfx ++ clean_filename lab) :
    ((runRowsFrom config avail wf st rows).tool_names).Nodup
    ∧ ∀ q ∈ (runRowsFrom config avail wf st rows).writes,
        ∃ lab ∈ (runRowsFrom config avail wf st rows).tool_names,
          q.2.name = config.pfx ++ clean_filename lab := by
  induction rows generalizing st with
  | nil => exact ⟨h1, h2⟩
  | cons r t ih =>
    rw [runRowsFrom_cons]
    obtain ⟨g1, g2⟩ := processRow_inv config avail wf st r h1 h2
    exact ih _ g1 g2

/-- C3 amended: duplicate raw labels are rejected before any record is built,
so the accepted labels of one run are pairwise distinct and every emitted
record's name is prefix ++ sanitize(label) for one of those labels.  The
derived names themselves are NOT guaranteed unique: sanitization is not
injective, so two distinct accepted labels can yield the same record name. -/
theorem c3_amended (config : Config) (avail : List (String × String))
    (wf : String → Bool) (rows : List ToolRow) :
    ((runRows config avail wf rows).tool_names).Nodup
    ∧ ∀ q ∈ (runRows config avail wf rows).writes,
        ∃ lab ∈ (runRows config avail wf rows).tool_names,
          q.2.name = config.pfx ++ clean_filename lab :=
  runState_inv config avail wf rows initState List.nodup_nil (by intro q hq; cases hq)

theorem c3_witness :
    ∃ lab ∈ (runRows cfg0 avail0 wfNone [rowB]).tool_names,
      (builtData cfg0 "AB" "ballend.fcstd" []).name = cfg0.pfx ++ clean_filename lab :=
  (c3_amended cfg0 avail0 wfNone [rowB]).2
    (pathOf cfg0 "AB", builtData cfg0 "AB" "ballend.fcstd" []) (by decide)

/-- C3 counterexample: the two distinct labels "AB!" and "AB" both pass the
duplicate check (the seen-set holds raw labels), but both sanitize to "AB",
so the run emits two records that share the derived name "sjj_AB" — the
derived name is not unique across the emitted records. -/
theorem c3_counterexample :
    ((runRows cfg0 avail0 wfNone [rowA, rowB]).writes.map (fun q => q.2.name))
      = ["sjj_AB", "sjj_AB"]
    ∧ ¬ ((runRows cfg0 avail0 wfNone [rowA, rowB]).writes.map
          (fun q => q.2.name)).Nodup :=
  ⟨by decide, by decide⟩

/-- C6: in a run whose rows are l1 ++ [r1] ++ l2 ++ [r2] ++ l3, where r1 and
r2 carry the same label (both with a head-shape cell present, as the DUPLICATE
classification presupposes: blank and header rows are classified earlier and
never remember their label), r1 is the first occurrence of that label, its
shape resolves and its write succeeds, the second row is classified DUPLICATE:
it only appends an error-level diagnostic and changes nothing else (so it
produces no output file), and after the whole run exactly one distinct on-disk
file carries the derived path of that label. -/
theorem c6_duplicate (config : Config) (avail : List (String × String))
    (wf : String → Bool) (l1 l2 l3 : List ToolRow) (r1 r2 : ToolRow)
    (lab kf1 kf2 sh : String) (w : List LogEntry)
    (hb1 : r1.bezeichnung = some lab) (hk1 : r1.kopfform = some kf1)
    (hfirst : lab ∉ (runRows config avail wf l1).tool_names)
    (hg : get_shape_for_type lab kf1 config.type_shape_mapping avail = (some sh, w))
    (hw : wf (pathOf config lab) = false)
    (hb2 : r2.bezeichnung = some lab) (hk2 : r2.kopfform = some kf2) :
    (processRow config avail wf (runRows config avail wf (l1 ++ r1 :: l2)) r2
      = { runRows config avail wf (l1 ++ r1 :: l2) with
            logs := (runRows config avail wf (l1 ++ r1 :: l2)).logs
              ++ [LogEntry.errorDuplicate lab] })
    ∧ LogEntry.errorDuplicate lab
        ∈ (runRows config avail wf (l1 ++ r1 :: l2 ++ r2 :: l3)).logs
    ∧ (((runRows config avail wf (l1 ++ r1 :: l2 ++ r2 :: l3)).writes.map
          Prod.fst).dedup).count (pathOf config lab) = 1 := by
  have hacc := processRow_accept config avail wf (runRows config avail wf l1) r1
    lab kf1 sh w hb1 hk1 hfirst hg hw
  have hmem1 : lab ∈ (processRow config avail wf (runRows config avail wf l1) r1).tool_names := by
    rw [hacc]
    exact List.mem_append_right _ (List.mem_singleton_self lab)
  have hwmem1 : (pathOf config lab, builtData config lab sh r1.cells)
      ∈ (processRow config avail wf (runRows config avail wf l1) r1).writes := by
    rw [hacc]
    exact List.mem_append_right _ (List.mem_singleton_self _)
  have hsplit : runRows config avail wf (l1 ++ r1 :: l2)
      = runRowsFrom config avail wf
          (processRow config avail wf (runRows config avail wf l1) r1) l2 := by
    unfold runRows
    rw [runRowsFrom_append, runRowsFrom_cons]
  have hmem2 : lab ∈ (runRows config avail wf (l1 ++ r1 :: l2)).tool_names := by
    rw [hsplit]
    exact mem_tool_names_runRowsFrom config avail wf _ l2 hmem1
  have hdup := processRow_dup config avail wf
    (runRows config avail wf (l1 ++ r1 :: l2)) r2 lab kf2 hb2 hk2 hmem2
  have hsplit2 : runRows config avail wf (l1 ++ r1 :: l2 ++ r2 :: l3)
      = runRowsFrom config avail wf
          (processRow config avail wf (runRows config avail wf (l1 ++ r1 :: l2)) r2) l3 := by
    conv_lhs => rw [show l1 ++ r1 :: l2 ++ r2 :: l3 = (l1 ++ r1 :: l2) ++ r2 :: l3 by simp]
    unfold runRows
    rw [runRowsFrom_append, runRowsFrom_cons]
  refine ⟨hdup, ?_, ?_⟩
  · rw [hsplit2]
    apply mem_logs_runRowsFrom
    rw [hdup]
    exact List.mem_append_right _ (List.mem_singleton_self _)
  · have hpair : (pathOf config lab, builtData config lab sh r1.cells)
        ∈ (runRows config avail wf (l1 ++ r1 :: l2 ++ r2 :: l3)).writes := by
      rw [hsplit2]
      apply mem_writes_runRowsFrom
      rw [hdup]
      show (pathOf config lab, builtData config lab sh r1.cells)
          ∈ (runRows config avail wf (l1 ++ r1 :: l2)).writes
      rw [hsplit]
      exact mem_writes_runRowsFrom config avail wf _ l2 hwmem1
    have hmemfst : pathOf config lab
        ∈ ((runRows config avail wf (l1 ++ r1 :: l2 ++ r2 :: l3)).writes.map Prod.fst) :=
      List.mem_map_of_mem Prod.fst hpair
    exact List.count_eq_one_of_mem (List.nodup_dedup _) (List.mem_dedup.mpr hmemfst)

theorem c6_witness :
    LogEntry.errorDuplicate "Kugel-10" ∈ (runRows cfg0 avail0 wfNone [rowK, rowK]).logs
    ∧ (((runRows cfg0 avail0 wfNone [rowK, rowK]).writes.map Prod.fst).dedup).count
        (pathOf cfg0 "Kugel-10") = 1 :=
  (c6_duplicate cfg0 avail0 wfNone [] [] [] rowK rowK "Kugel-10" "Kugel" "Kugel"
    "ballend.fcstd" [] rfl rfl (by decide) (by decide) rfl rfl rfl).2

/-! Lemmas about the library-assignment fold. -/

theorem alookup_appendAt_self (libs : List (String × List String)) (k p : String) :
    alookup (appendAt libs k p) k = (alookup libs k).map (fun v => v ++ [p]) := by
  induction libs with
  | nil => rfl
  | cons e rest ih =>
    by_cases h : e.1 = k
    · simp [appendAt, alookup, h]
    · simp [appendAt, alookup, h, ih]

theorem alookup_appendAt_ne (libs : List (String × List String)) (k k2 p : String)
    (h : k2 ≠ k) :
    alookup (appendAt libs k p) k2 = alookup libs k2 := by
  induction libs with
  | nil => rfl
  | cons e rest ih =>
    by_cases he : e.1 = k
    · have h2 : ¬ e.1 = k2 := fun hh => h (hh ▸ he)
      have h3 : ¬ k = k2 := fun hh => h hh.symm
      simp [appendAt, alookup, he, h2, h3]
    · by_cases h2 : e.1 = k2 <;> simp [appendAt, alookup, he, h2, ih, h]

theorem innerFold_ne (row : List (Option String)) (path : String)
    (li : List (String × Nat)) (L : String) (libs : List (String × List String))
    (hL : ∀ lc ∈ li, lc.1 ≠ L) :
    alookup (li.foldl (markLib row path) libs) L = alookup libs L := by
  induction li generalizing libs with
  | nil => rfl
  | cons lc tl ih =>
    rw [List.foldl_cons, ih _ (fun x hx => hL x (List.mem_cons_of_mem _ hx))]
    unfold markLib
    split
    · exact alookup_appendAt_ne libs lc.1 L path (Ne.symm (hL lc (List.mem_cons_self _ _)))
    · rfl

theorem innerFold_mem (row : List (Option String)) (path : String)
    (li : List (String × Nat)) (L : String) (c : Nat)
    (libs : List (String × List String))
    (hmem : (L, c) ∈ li) (hnd : (li.map Prod.fst).Nodup) :
    alookup (li.foldl (markLib row path) libs) L
      = (alookup libs L).map
          (fun v => v ++ (if cellAt row c = some "x" then [path] else [])) := by
  induction li generalizing libs with
  | nil => cases hmem
  | cons lc tl ih =>
    rw [List.foldl_cons]
    have hnd2 := List.nodup_cons.mp hnd
    rcases List.mem_cons.mp hmem with he | ht
    · subst he
      have hLtl : ∀ x ∈ tl, x.1 ≠ L := by
        intro x hx hEq
        have hm : x.1 ∈ List.map Prod.fst tl := List.mem_map_of_mem Prod.fst hx
        rw [hEq] at hm
        exact hnd2.1 hm
      rw [innerFold_ne row path tl L _ hLtl]
      simp only [markLib]
      by_cases hx : cellAt row c = some "x"
      · simp [hx, alookup_appendAt_self]
      · simp [hx]
    · have h1 : lc.1 ≠ L := by
        intro hEq
        have hm : (L, c).1 ∈ List.map Prod.fst tl := List.mem_map_of_mem Prod.fst ht
        rw [← hEq] at hm
        exact hnd2.1 hm
      rw [ih _ ht hnd2.2]
      simp only [markLib]
      by_cases hx2 : cellAt row lc.2 = some "x"
      · rw [if_pos hx2, alookup_appendAt_ne libs lc.1 L path (Ne.symm h1)]
      · rw [if_neg hx2]

theorem outerFold_alookup (toolMap : List (String × String)) (li : List (String × Nat))
    (L : String) (c : Nat) (hmem : (L, c) ∈ li) (hnd : (li.map Prod.fst).Nodup) :
    ∀ (sheet : List (List (Option String))) (libs : List (String × List String))
      (v : List String), alookup libs L = some v →
      alookup (sheet.foldl (libRowStep li toolMap) libs) L
        = some (v ++ libraryRowFilter toolMap c sheet) := by
  intro sheet
  induction sheet with
  | nil =>
    intro libs v hv
    simpa [libraryRowFilter] using hv
  | cons row tl ih =>
    intro libs v hv
    rw [List.foldl_cons]
    cases h0 : cellAt row 0 with
    | none =>
      have hstep : libRowStep li toolMap libs row = libs := by
        simp [libRowStep, h0]
      rw [hstep, ih libs v hv]
      simp [libraryRowFilter, List.filterMap_cons, h0]
    | some v0 =>
      cases h1 : alookup toolMap (clean_filename v0) with
      | none =>
        have hstep : libRowStep li toolMap libs row = libs := by
          simp [libRowStep, h0, h1]
        rw [hstep, ih libs v hv]
        simp [libraryRowFilter, List.filterMap_cons, h0, h1]
      | some path =>
        have hstep : libRowStep li toolMap libs row
            = li.foldl (markLib row path) libs := by
          simp [libRowStep, h0, h1]
        have hin := innerFold_mem row path li L c libs hmem hnd
        rw [hv] at hin
        simp only [Option.map_some'] at hin
        rw [hstep, ih _ _ hin]
        by_cases hx : cellAt row c = some "x"
        · simp [libraryRowFilter, List.filterMap_cons, h0, h1, hx, List.append_assoc]
        · simp [libraryRowFilter, List.filterMap_cons, h0, h1, hx]

theorem alookup_init (li : List (String × Nat)) (L : String) (c : Nat)
    (hmem : (L, c) ∈ li) :
    alookup (li.map (fun lc => (lc.1, ([] : List String)))) L = some [] := by
  induction li with
  | nil => cases hmem
  | cons lc tl ih =>
    by_cases h : lc.1 = L
    · simp [alookup, h]
    · rcases List.mem_cons.mp hmem with he | ht
      · exact absurd (congrArg Prod.fst he).symm h
      · simp [alookup, h, ih ht]

/-- C5: for every known library (name L, column c) of the deduplicated library
index, the list generate_library_tool_structure assigns to L is exactly the
row-ordered scan of the secondary sheet: each data row contributes the matched
tool's output path precisely when its first column is non-empty, its sanitized
value names a built tool, and the marker cell in column c equals the literal
"x"; rows with an empty first column are skipped, and the resulting order of
appends is the row-scan order. -/
theorem c5_library_assignment (sheet : List (List (Option String)))
    (libIndex : List (String × Nat)) (tools_paths : List String) (L : String)
    (c : Nat) (hmem : (L, c) ∈ libIndex) (hnd : (libIndex.map Prod.fst).Nodup) :
    alookup (generate_library_tool_structure sheet libIndex tools_paths) L
      = some (libraryRowFilter (buildToolMap tools_paths) c sheet) := by
  have hinit := alookup_init libIndex L c hmem
  have h := outerFold_alookup (buildToolMap tools_paths) libIndex L c hmem hnd sheet
    (libIndex.map (fun lc => (lc.1, ([] : List String)))) [] hinit
  simpa [generate_library_tool_structure] using h

theorem c5_witness :
    alookup (generate_library_tool_structure sheetK libIdx1
        [pathOf cfg0 "Kugel-10"]) "Lib1"
      = some (libraryRowFilter (buildToolMap [pathOf cfg0 "Kugel-10"]) 5 sheetK) :=
  c5_library_assignment sheetK libIdx1 [pathOf cfg0 "Kugel-10"] "Lib1" 5
    (by decide) (by decide)

/-- C8: every record emitted by generate_library_files comes from one input
library (name, path list) and contains exactly the tool entries numbered
1..n contiguously in list order, each carrying the path's base filename with
the directory stripped, plus the configured schema version. -/
theorem c8_library_records (libraries : List (String × List String))
    (config : Config) (fname : String) (rec : LibraryData)
    (h : (fname, rec) ∈ generate_library_files libraries config) :
    ∃ L paths, (L, paths) ∈ libraries
      ∧ fname = joinPath config.output_directory (config.pfx ++ L ++ ".fctl")
      ∧ rec.tools.map Prod.fst = (List.range paths.length).map (fun i => i + 1)
      ∧ rec.tools.map Prod.snd = paths.map basename
      ∧ rec.version = config.library_version := by
  unfold generate_library_files at h
  rcases List.mem_map.mp h with ⟨lp, hlp, he⟩
  injection he with he1 he2
  subst he1
  subst he2
  refine ⟨lp.1, lp.2, hlp, rfl, ?_, ?_, rfl⟩
  · show (lp.2.enum.map (fun ip => (ip.1 + 1, basename ip.2))).map Prod.fst
        = (List.range lp.2.length).map (fun i => i + 1)
    rw [List.map_map, ← List.enum_map_fst lp.2, List.map_map]
    rfl
  · show (lp.2.enum.map (fun ip => (ip.1 + 1, basename ip.2))).map Prod.snd
        = lp.2.map basename
    rw [List.map_map]
    conv_rhs => rw [← List.enum_map_snd lp.2]
    rw [List.map_map]
    rfl

theorem c8_witness :
    ∃ L paths, (L, paths) ∈ libsW
      ∧ "out\\sjj_Lib1.fctl"
          = joinPath cfg0.output_directory (cfg0.pfx ++ L ++ ".fctl")
      ∧ ([(1, "sjj_A.fctb")] : List (Nat × String)).map Prod.fst
          = (List.range paths.length).map (fun i => i + 1)
      ∧ ([(1, "sjj_A.fctb")] : List (Nat × String)).map Prod.snd
          = paths.map basename
      ∧ (1 : Int) = cfg0.library_version :=
  c8_library_records libsW cfg0 "out\\sjj_Lib1.fctl" ⟨[(1, "sjj_A.fctb")], 1⟩
    (by decide)

/-! Lemmas for C10: the identifier used to match built tools against the
secondary sheet. -/

theorem buildToolMap_key (tools_paths : List String) :
    ∀ (acc : List (String × String)) (k p : String),
      alookup (tools_paths.foldl (fun m q => (keyOf q, q) :: m) acc) k = some p →
      keyOf p = k ∨ alookup acc k = some p := by
  induction tools_paths with
  | nil => intro acc k p h; exact Or.inr h
  | cons q tl ih =>
    intro acc k p h
    rw [List.foldl_cons] at h
    rcases ih _ k p h with h1 | h1
    · exact Or.inl h1
    · by_cases hk : keyOf q = k
      · left
        have : some q = some p := by
          rw [← h1]
          simp [alookup, hk]
        rw [← Option.some.inj this]
        exact hk
      · right
        simp only [alookup] at h1
        rwa [if_neg hk] at h1

theorem mem_appendAt (libs : List (String × List String)) (k p L : String)
    (ls : List String) (h : (L, ls) ∈ appendAt libs k p) :
    ∃ ls0, (L, ls0) ∈ libs ∧ (ls = ls0 ∨ ls = ls0 ++ [p]) := by
  induction libs with
  | nil => cases h
  | cons e rest ih =>
    by_cases he : e.1 = k
    · rw [appendAt, if_pos he] at h
      rcases List.mem_cons.mp h with he2 | ht
      · injection he2 with heL hels
        refine ⟨e.2, ?_, Or.inr hels⟩
        have hee : (L, e.2) = e := by rw [heL]
        rw [hee]
        exact List.mem_cons_self _ _
      · exact ⟨ls, List.mem_cons_of_mem _ ht, Or.inl rfl⟩
    · rw [appendAt, if_neg he] at h
      rcases List.mem_cons.mp h with he2 | ht
      · exact ⟨ls, he2 ▸ List.mem_cons_self _ _, Or.inl rfl⟩
      · obtain ⟨ls0, hm, ho⟩ := ih ht
        exact ⟨ls0, List.mem_cons_of_mem _ hm, ho⟩

theorem innerFold_no_new (row : List (Option String)) (path p : String)
    (hne : path ≠ p) (li : List (String × Nat)) :
    ∀ libs : List (String × List String),
      (∀ L ls, (L, ls) ∈ libs → p ∉ ls) →
      ∀ L ls, (L, ls) ∈ li.foldl (markLib row path) libs → p ∉ ls := by
  induction li with
  | nil => intro libs h L ls hm; exact h L ls hm
  | cons lc tl ih =>
    intro libs h L ls hm
    rw [List.foldl_cons] at hm
    refine ih _ ?_ L ls hm
    intro L2 ls2 hm2
    unfold markLib at hm2
    split at hm2
    · rcases mem_appendAt libs lc.1 path L2 ls2 hm2 with ⟨ls0, hls0, he | he⟩
      · exact he ▸ h _ _ hls0
      · subst he
        intro hp
        rcases List.mem_append.mp hp with hp | hp
        · exact h _ _ hls0 hp
        · rw [List.mem_singleton] at hp
          exact hne hp.symm
    · exact h _ _ hm2

theorem sheetFold_no_new (li : List (String × Nat))
    (toolMap : List (String × String)) (p : String)
    (hkey : ∀ k, alookup toolMap k = some p → k = keyOf p) :
    ∀ (sheet : List (List (Option String))) (libs : List (String × List String)),
      (∀ row ∈ sheet, ∀ v, cellAt row 0 = some v → clean_filename v ≠ keyOf p) →
      (∀ L ls, (L, ls) ∈ libs → p ∉ ls) →
      ∀ L ls, (L, ls) ∈ sheet.foldl (libRowStep li toolMap) libs → p ∉ ls := by
  intro sheet
  induction sheet with
  | nil => intro libs _ h L ls hm; exact h L ls hm
  | cons row tl ih =>
    intro libs hrow h L ls hm
    rw [List.foldl_cons] at hm
    refine ih _ (fun r hr => hrow r (List.mem_cons_of_mem _ hr)) ?_ L ls hm
    intro L2 ls2 hm2
    cases h0 : cellAt row 0 with
    | none =>
      simp only [libRowStep, h0] at hm2
      exact h _ _ hm2
    | some v =>
      simp only [libRowStep, h0] at hm2
      cases h1 : alookup toolMap (clean_filename v) with
      | none =>
        simp only [h1] at hm2
        exact h _ _ hm2
      | some path =>
        simp only [h1] at hm2
        have hvne : clean_filename v ≠ keyOf p :=
          hrow row (List.mem_cons_self _ _) v h0
        have hpne : path ≠ p := fun he => hvne (hkey _ (he ▸ h1))
        exact innerFold_no_new row path p hpne li libs h L2 ls2 hm2

/-- C10: the candidate identifier of a built tool is derived from its output
path purely textually (last backslash-separated component, then the literal
substrings "sjj_" and ".fctb" deleted; the configured output-name prefix is
not an input of generate_library_tool_structure at all), so whenever no data
row's sanitized first column equals that derived key — as happens when the
path uses a different separator or prefix — the path is assigned to no
library. -/
theorem c10_identifier_matching (sheet : List (List (Option String)))
    (libIndex : List (String × Nat)) (tools_paths : List String) (p : String)
    (hnomatch : ∀ row ∈ sheet, ∀ v, cellAt row 0 = some v →
        clean_filename v ≠ keyOf p) :
    ∀ L ls, (L, ls) ∈ generate_library_tool_structure sheet libIndex tools_paths →
      p ∉ ls := by
  have hkey : ∀ k, alookup (buildToolMap tools_paths) k = some p → k = keyOf p := by
    intro k hk
    unfold buildToolMap at hk
    rcases buildToolMap_key tools_paths [] k p hk with h1 | h1
    · exact h1.symm
    · cases h1
  have hinit : ∀ L ls,
      (L, ls) ∈ libIndex.map (fun lc => (lc.1, ([] : List String))) → p ∉ ls := by
    intro L ls hm
    rcases List.mem_map.mp hm with ⟨lc, _, he⟩
    injection he with he1 he2
    rw [← he2]
    exact List.not_mem_nil p
  exact sheetFold_no_new libIndex (buildToolMap tools_paths) p hkey sheet
    (libIndex.map (fun lc => (lc.1, ([] : List String)))) hnomatch hinit

theorem c10_witness :
    ("Lib1", ([] : List String)) ∈ generate_library_tool_structure sheetX libIdx1 [pX]
    ∧ pX ∉ ([] : List String) := by
  constructor
  · decide
  · refine c10_identifier_matching sheetX libIdx1 [pX] pX ?_ "Lib1" [] (by decide)
    intro row hrow v hv
    simp only [sheetX, List.mem_singleton] at hrow
    subst hrow
    have hv2 : v = "AB" := (Option.some.inj hv).symm
    subst hv2
    decide
